import Mathlib

/-!
# Verification of the workspace-invitation / collaborator / manifest-state feature

Shallow embedding of the Go handlers in `coderd/workspaceinvitations.go`, the
SQL queries in `coderd/database/queries/workspaceinvitations.sql`, the schema
in the migration that creates `workspace_invitations` / `workspace_collaborators`,
and the GitHub-App manifest flow handlers.

Modelling conventions:
* UUIDs are modelled as `Nat`; freshly generated ids come from per-table
  counters in the database state.
* Timestamps are `Int` seconds.  `dbtime.Now()` in a handler and `NOW()` in the
  SQL statements it issues are modelled as the same instant `now`, one per
  request.
* `crypto/rand` output is an explicit parameter (a list of byte values).
* A SQL `... :one` statement that can return `sql.ErrNoRows` is modelled as an
  `Option`; other database errors (connection loss etc.) on the one write whose
  failure the code tolerates are modelled by an explicit oracle flag.
* The SQL `UNIQUE` constraints (`workspace_invitations.token`,
  `workspace_collaborators (workspace_id, user_id)`) are modelled as insert
  guards: an insert that would violate them fails.
-/

/-- A row of `workspace_invitations` (migration schema). -/
structure WorkspaceInvitation where
  id : Nat
  workspace_id : Nat
  inviter_id : Nat
  email : String
  access_level : String
  token : String
  status : String
  expires_at : Int
  created_at : Int
  responded_at : Option Int
deriving Repr, DecidableEq

/-- A row of `workspace_collaborators` (migration schema). -/
structure WorkspaceCollaborator where
  id : Nat
  workspace_id : Nat
  user_id : Nat
  access_level : String
  invited_by : Option Nat
  created_at : Int
deriving Repr, DecidableEq

/-- The fields of a `users` row that the handlers read. -/
structure User where
  id : Nat
  email : String
  username : String
  name : String
  avatar_url : String
deriving Repr, DecidableEq

/-- The fields of a `workspaces` row that the handlers read. -/
structure Workspace where
  id : Nat
  name : String
deriving Repr, DecidableEq

/-- A row of `external_auth_manifest_states`. -/
structure ManifestState where
  state : String
  redirect_uri : String
  created_at : Int
  expires_at : Int
deriving Repr, DecidableEq

/-- The relational store backing the handlers. -/
structure DB where
  invitations : List WorkspaceInvitation
  collaborators : List WorkspaceCollaborator
  users : List User
  workspaces : List Workspace
  manifestStates : List ManifestState
  nextInvId : Nat
  nextCollabId : Nat
deriving Repr, DecidableEq

/-- The URL-safe base64 alphabet used by Go's `base64.RawURLEncoding`. -/
def b64Chars : List Char :=
  ['A','B','C','D','E','F','G','H','I','J','K','L','M',
   'N','O','P','Q','R','S','T','U','V','W','X','Y','Z',
   'a','b','c','d','e','f','g','h','i','j','k','l','m',
   'n','o','p','q','r','s','t','u','v','w','x','y','z',
   '0','1','2','3','4','5','6','7','8','9','-','_']

/-- Character for a 6-bit value. -/
def encodeChar (n : Nat) : Char := b64Chars.getD n 'A'

/-- 6-bit value of an alphabet character. -/
def decodeChar (c : Char) : Option Nat := b64Chars.indexOf? c

/-- Go `base64.RawURLEncoding.EncodeToString`: unpadded URL-safe base64 of a
byte sequence (bit shifts written as division/multiplication on `Nat`). -/
def b64encode : List Nat → List Char
  | [] => []
  | [b1] => [encodeChar (b1 / 4), encodeChar (b1 % 4 * 16)]
  | [b1, b2] =>
    [encodeChar (b1 / 4), encodeChar (b1 % 4 * 16 + b2 / 16), encodeChar (b2 % 16 * 4)]
  | b1 :: b2 :: b3 :: rest =>
    encodeChar (b1 / 4) :: encodeChar (b1 % 4 * 16 + b2 / 16) ::
    encodeChar (b2 % 16 * 4 + b3 / 64) :: encodeChar (b3 % 64) :: b64encode rest

/-- Unpadded URL-safe base64 decoding, inverse of `b64encode`. -/
def b64decode : List Char → Option (List Nat)
  | [] => some []
  | [_] => none
  | [c1, c2] =>
    match decodeChar c1, decodeChar c2 with
    | some n1, some n2 => some [n1 * 4 + n2 / 16]
    | _, _ => none
  | [c1, c2, c3] =>
    match decodeChar c1, decodeChar c2, decodeChar c3 with
    | some n1, some n2, some n3 => some [n1 * 4 + n2 / 16, n2 % 16 * 16 + n3 / 4]
    | _, _, _ => none
  | c1 :: c2 :: c3 :: c4 :: rest =>
    match decodeChar c1, decodeChar c2, decodeChar c3, decodeChar c4, b64decode rest with
    | some n1, some n2, some n3, some n4, some bs =>
      some ((n1 * 4 + n2 / 16) :: (n2 % 16 * 16 + n3 / 4) :: (n3 % 4 * 64 + n4) :: bs)
    | _, _, _, _, _ => none

/-- `invitationTokenLength` constant from the Go source. -/
def invitationTokenLength : Nat := 32

/-- `invitationExpiryDays` constant from the Go source. -/
def invitationExpiryDays : Int := 7

/-- `generateInvitationToken`: URL-safe base64 of the random bytes drawn from
`crypto/rand` (passed explicitly). -/
def generateInvitationToken (randomBytes : List Nat) : String :=
  String.mk (b64encode randomBytes)

/-- `GetWorkspaceInvitationByToken`: `SELECT ... WHERE token = $1 LIMIT 1`. -/
def getWorkspaceInvitationByToken (db : DB) (token : String) : Option WorkspaceInvitation :=
  db.invitations.find? (fun i => i.token == token)

/-- `GetWorkspaceInvitationByID`: `SELECT ... WHERE id = $1 LIMIT 1`. -/
def getWorkspaceInvitationByID (db : DB) (invId : Nat) : Option WorkspaceInvitation :=
  db.invitations.find? (fun i => i.id == invId)

/-- `GetUserByID` (external store, read-only here). -/
def getUserByID (db : DB) (uid : Nat) : Option User :=
  db.users.find? (fun u => u.id == uid)

/-- `GetWorkspaceByID` (external store, read-only here). -/
def getWorkspaceByID (db : DB) (wid : Nat) : Option Workspace :=
  db.workspaces.find? (fun w => w.id == wid)

/-- Match predicate of `GetWorkspaceCollaboratorByUserAndWorkspace` and of the
`UNIQUE(workspace_id, user_id)` constraint. -/
def collabMatches (ws uid : Nat) (c : WorkspaceCollaborator) : Bool :=
  c.workspace_id == ws && c.user_id == uid

/-- `GetWorkspaceCollaboratorByUserAndWorkspace`. -/
def getWorkspaceCollaboratorByUserAndWorkspace (db : DB) (ws uid : Nat) :
    Option WorkspaceCollaborator :=
  db.collaborators.find? (collabMatches ws uid)

/-- `CreateWorkspaceCollaborator`: `INSERT INTO workspace_collaborators ...`.
The `UNIQUE(workspace_id, user_id)` constraint makes the insert fail when a
row for the pair already exists. -/
def createWorkspaceCollaborator (db : DB) (now : Int) (ws uid : Nat)
    (lvl : String) (invitedBy : Option Nat) : Except Unit (WorkspaceCollaborator × DB) :=
  match db.collaborators.find? (collabMatches ws uid) with
  | some _ => .error ()
  | none =>
    let c : WorkspaceCollaborator :=
      { id := db.nextCollabId, workspace_id := ws, user_id := uid,
        access_level := lvl, invited_by := invitedBy, created_at := now }
    .ok (c, { db with collaborators := c :: db.collaborators,
                      nextCollabId := db.nextCollabId + 1 })

/-- `UpdateWorkspaceInvitationStatus`:
`UPDATE workspace_invitations SET status = $2, responded_at = NOW() WHERE id = $1 RETURNING *`.
Returns `none` for `sql.ErrNoRows` (no row with that id). -/
def updateWorkspaceInvitationStatus (db : DB) (now : Int) (invId : Nat) (st : String) :
    Option (WorkspaceInvitation × DB) :=
  match db.invitations.find? (fun i => i.id == invId) with
  | none => none
  | some i =>
    some ({ i with status := st, responded_at := some now },
      { db with invitations := db.invitations.map (fun j =>
          if j.id == invId then { j with status := st, responded_at := some now } else j) })

/-- `ExpireWorkspaceInvitations`:
`UPDATE ... SET status = 'expired' WHERE status = 'pending' AND expires_at <= NOW()`. -/
def expireWorkspaceInvitations (db : DB) (now : Int) : DB :=
  { db with invitations := db.invitations.map (fun i =>
      if i.status == "pending" && decide (i.expires_at ≤ now)
      then { i with status := "expired" } else i) }

/-- `CreateWorkspaceInvitation`: `INSERT INTO workspace_invitations ...` with
schema defaults `status = 'pending'`, `created_at = NOW()`, fresh id.  The
`UNIQUE` constraint on `token` makes the insert fail on a duplicate token. -/
def dbCreateWorkspaceInvitation (db : DB) (now : Int) (ws inviter : Nat)
    (email lvl token : String) (expiresAt : Int) :
    Except Unit (WorkspaceInvitation × DB) :=
  if db.invitations.any (fun i => i.token == token) then .error ()
  else
    let inv : WorkspaceInvitation :=
      { id := db.nextInvId, workspace_id := ws, inviter_id := inviter,
        email := email, access_level := lvl, token := token, status := "pending",
        expires_at := expiresAt, created_at := now, responded_at := none }
    .ok (inv, { db with invitations := inv :: db.invitations, nextInvId := db.nextInvId + 1 })

/-- `codersdk.WorkspaceInvitation` as written to responses. -/
structure SDKWorkspaceInvitation where
  id : Nat
  workspace_id : Nat
  inviter_id : Nat
  email : String
  access_level : String
  status : String
  token : String
  expires_at : Int
  created_at : Int
  responded_at : Option Int
  workspace_name : String
  inviter_username : String
deriving Repr, DecidableEq

/-- `codersdk.WorkspaceCollaborator` as written to responses. -/
structure SDKWorkspaceCollaborator where
  id : Nat
  workspace_id : Nat
  user_id : Nat
  access_level : String
  invited_by : Option Nat
  created_at : Int
  username : String
  email : String
  avatar_url : String
deriving Repr, DecidableEq

/-- `convertWorkspaceInvitation`: the token argument is copied into the
response only when nonempty (the zero value is the empty string either way). -/
def convertWorkspaceInvitation (inv : WorkspaceInvitation) (token : String) :
    SDKWorkspaceInvitation :=
  { id := inv.id, workspace_id := inv.workspace_id, inviter_id := inv.inviter_id,
    email := inv.email, access_level := inv.access_level, status := inv.status,
    token := if token ≠ "" then token else "",
    expires_at := inv.expires_at, created_at := inv.created_at,
    responded_at := inv.responded_at,
    workspace_name := "", inviter_username := "" }

/-- `convertWorkspaceCollaborator`. -/
def convertWorkspaceCollaborator (c : WorkspaceCollaborator) : SDKWorkspaceCollaborator :=
  { id := c.id, workspace_id := c.workspace_id, user_id := c.user_id,
    access_level := c.access_level, invited_by := c.invited_by,
    created_at := c.created_at, username := "", email := "", avatar_url := "" }

/-- Descending order on invitation creation time. -/
def invCreatedDesc (a b : WorkspaceInvitation) : Prop := b.created_at ≤ a.created_at

instance : DecidableRel invCreatedDesc :=
  fun a b => (inferInstance : Decidable (b.created_at ≤ a.created_at))

instance : IsTotal WorkspaceInvitation invCreatedDesc :=
  ⟨fun a b => Int.le_total b.created_at a.created_at⟩

instance : IsTrans WorkspaceInvitation invCreatedDesc :=
  ⟨fun _ _ _ h1 h2 => le_trans h2 h1⟩

/-- `GetWorkspaceInvitationsByWorkspaceID`:
`SELECT ... WHERE workspace_id = $1 ORDER BY created_at DESC`. -/
def getWorkspaceInvitationsByWorkspaceID (db : DB) (ws : Nat) : List WorkspaceInvitation :=
  List.insertionSort invCreatedDesc (db.invitations.filter (fun i => i.workspace_id == ws))

/-- `GetPendingWorkspaceInvitationsByEmail`:
`SELECT ... WHERE email = $1 AND status = 'pending' AND expires_at > NOW()
 ORDER BY created_at DESC`. -/
def getPendingWorkspaceInvitationsByEmail (db : DB) (now : Int) (email : String) :
    List WorkspaceInvitation :=
  List.insertionSort invCreatedDesc (db.invitations.filter
    (fun i => i.email == email && i.status == "pending" && decide (now < i.expires_at)))

/-- Failure outcomes of the invitation/collaborator handlers, abstracting the
HTTP status plus message each `httpapi.Write` produces. -/
inductive HandlerError where
  /-- 404, "Invitation not found." / "Collaborator not found." -/
  | notFound
  /-- 400, "Invitation is {status}." (accept) or "Invitation is already {status}." (decline) -/
  | wrongStatus (status : String)
  /-- 400, "Invitation has expired." -/
  | expired
  /-- 403, "This invitation was sent to a different email address." -/
  | emailMismatch
  /-- 409, "You are already a collaborator on this workspace." -/
  | alreadyCollaborator
  /-- 500, unexpected store failure -/
  | dbError
deriving Repr, DecidableEq

/-- `createWorkspaceInvitation` handler: generates the token, computes
`expiresAt = now + 7 days`, inserts the row, and returns the converted
invitation carrying the plaintext token.  The best-effort invitation email has
no effect on the store or the response and is not modelled. -/
def createWorkspaceInvitation (db : DB) (now : Int) (ws inviter : Nat)
    (email lvl : String) (randomBytes : List Nat) :
    (Except HandlerError SDKWorkspaceInvitation) × DB :=
  let token := generateInvitationToken randomBytes
  let expiresAt := now + invitationExpiryDays * 24 * 60 * 60
  match dbCreateWorkspaceInvitation db now ws inviter email lvl token expiresAt with
  | .error _ => (.error .dbError, db)
  | .ok (inv, db') => (.ok (convertWorkspaceInvitation inv token), db')

/-- `listWorkspaceInvitations` handler: converts every invitation of the
workspace with an empty token. -/
def listWorkspaceInvitations (db : DB) (ws : Nat) : List SDKWorkspaceInvitation :=
  (getWorkspaceInvitationsByWorkspaceID db ws).map (fun i => convertWorkspaceInvitation i "")

/-- `deleteWorkspaceInvitation` handler (cancel): looks the invitation up by id
and unconditionally sets its status to `canceled`. -/
def deleteWorkspaceInvitation (db : DB) (now : Int) (invId : Nat) :
    (Except HandlerError Unit) × DB :=
  match getWorkspaceInvitationByID db invId with
  | none => (.error .notFound, db)
  | some inv =>
    match updateWorkspaceInvitationStatus db now inv.id "canceled" with
    | none => (.error .dbError, db)
    | some (_, db') => (.ok (), db')

/-- `getWorkspaceInvitationByToken` handler: public lookup, token redacted,
enriched with workspace name and inviter username. -/
def getWorkspaceInvitationByTokenHandler (db : DB) (token : String) :
    Except HandlerError SDKWorkspaceInvitation :=
  match getWorkspaceInvitationByToken db token with
  | none => .error .notFound
  | some inv =>
    match getWorkspaceByID db inv.workspace_id with
    | none => .error .dbError
    | some ws =>
      match getUserByID db inv.inviter_id with
      | none => .error .dbError
      | some inviter =>
        .ok { convertWorkspaceInvitation inv "" with
                workspace_name := ws.name, inviter_username := inviter.username }

/-- `acceptWorkspaceInvitation` handler.  `updFail` is the oracle for a store
failure of the final status-update write (which the code logs and tolerates). -/
def acceptWorkspaceInvitation (db : DB) (now : Int) (token : String) (caller : Nat)
    (updFail : Bool) : (Except HandlerError SDKWorkspaceCollaborator) × DB :=
  match getWorkspaceInvitationByToken db token with
  | none => (.error .notFound, db)
  | some inv =>
    if inv.status ≠ "pending" then (.error (.wrongStatus inv.status), db)
    else if inv.expires_at < now then (.error .expired, db)
    else
      match getUserByID db caller with
      | none => (.error .dbError, db)
      | some user =>
        if user.email ≠ inv.email then (.error .emailMismatch, db)
        else
          match getWorkspaceCollaboratorByUserAndWorkspace db inv.workspace_id caller with
          | some _ => (.error .alreadyCollaborator, db)
          | none =>
            match createWorkspaceCollaborator db now inv.workspace_id caller
                inv.access_level (some inv.inviter_id) with
            | .error _ => (.error .dbError, db)
            | .ok (collab, db1) =>
              let db2 :=
                if updFail then db1
                else
                  match updateWorkspaceInvitationStatus db1 now inv.id "accepted" with
                  | none => db1
                  | some (_, d) => d
              (.ok { convertWorkspaceCollaborator collab with
                       username := user.username, email := user.email,
                       avatar_url := user.avatar_url }, db2)

/-- `declineWorkspaceInvitation` handler. -/
def declineWorkspaceInvitation (db : DB) (now : Int) (token : String) :
    (Except HandlerError Unit) × DB :=
  match getWorkspaceInvitationByToken db token with
  | none => (.error .notFound, db)
  | some inv =>
    if inv.status ≠ "pending" then (.error (.wrongStatus inv.status), db)
    else
      match updateWorkspaceInvitationStatus db now inv.id "declined" with
      | none => (.error .dbError, db)
      | some (_, db') => (.ok (), db')

/-- `getMyPendingInvitations` handler: pending unexpired invitations addressed
to the caller's email, token redacted, rows whose workspace or inviter cannot
be resolved silently skipped. -/
def getMyPendingInvitations (db : DB) (now : Int) (caller : Nat) :
    Except HandlerError (List SDKWorkspaceInvitation) :=
  match getUserByID db caller with
  | none => .error .dbError
  | some u =>
    .ok ((getPendingWorkspaceInvitationsByEmail db now u.email).filterMap (fun inv =>
      match getWorkspaceByID db inv.workspace_id with
      | none => none
      | some ws =>
        match getUserByID db inv.inviter_id with
        | none => none
        | some inviter =>
          some { convertWorkspaceInvitation inv "" with
                   workspace_name := ws.name, inviter_username := inviter.username }))

/-- `updateWorkspaceCollaborator` handler:
`UPDATE workspace_collaborators SET access_level = $2 WHERE id = $1 RETURNING *`,
`none` when no row matches. -/
def updateWorkspaceCollaboratorAccessLevel (db : DB) (cid : Nat) (lvl : String) :
    Option (WorkspaceCollaborator × DB) :=
  match db.collaborators.find? (fun c => c.id == cid) with
  | none => none
  | some c =>
    some ({ c with access_level := lvl },
      { db with collaborators := db.collaborators.map (fun d =>
          if d.id == cid then { d with access_level := lvl } else d) })

/-- `deleteWorkspaceCollaborator` handler: deletes by id, succeeds even when
zero rows match. -/
def deleteWorkspaceCollaborator (db : DB) (cid : Nat) : (Except HandlerError Unit) × DB :=
  (.ok (), { db with collaborators := db.collaborators.filter (fun c => c.id != cid) })

/-- `GetExternalAuthManifestState`:
`SELECT ... WHERE state = $1 AND expires_at > NOW()`. -/
def getExternalAuthManifestState (db : DB) (now : Int) (st : String) : Option ManifestState :=
  db.manifestStates.find? (fun s => s.state == st && decide (now < s.expires_at))

/-- `DeleteExternalAuthManifestState`: `DELETE ... WHERE state = $1`. -/
def deleteExternalAuthManifestState (db : DB) (st : String) : DB :=
  { db with manifestStates := db.manifestStates.filter (fun s => s.state != st) }

/-- `initiateGitHubAppManifest` handler, reduced to its store effect: validates
the redirect URI, stores `{state, redirect_uri, expires_at = now + 10 min}`,
and returns the state (the manifest URL construction is pure string building). -/
def initiateGitHubAppManifest (db : DB) (now : Int) (redirectURI state : String) :
    (Except HandlerError String) × DB :=
  if redirectURI = "" then (.error .dbError, db)
  else
    let ms : ManifestState :=
      { state := state, redirect_uri := redirectURI,
        created_at := now, expires_at := now + 10 * 60 }
    (.ok state, { db with manifestStates := ms :: db.manifestStates })

/-- `completeGitHubAppManifest` handler, up to the store effects the claims
concern: validates inputs, looks the state up (expiry-filtered), deletes it
immediately, then performs the external code exchange, whose outcome is the
oracle `exchangeOk` (the provider insert on success is outside the modelled
tables). -/
def completeGitHubAppManifest (db : DB) (now : Int) (code st : String)
    (exchangeOk : Bool) : (Except HandlerError Unit) × DB :=
  if code = "" ∨ st = "" then (.error .dbError, db)
  else
    match getExternalAuthManifestState db now st with
    | none => (.error .notFound, db)
    | some _ =>
      let db1 := deleteExternalAuthManifestState db st
      if exchangeOk then (.ok (), db1) else (.error .dbError, db1)

/-- `handleGitHubAppManifestCallbackRedirect` handler: read-only; on a valid
state returns the stored redirect URI the browser is sent to. -/
def handleGitHubAppManifestCallbackRedirect (db : DB) (now : Int) (code st : String) :
    Except HandlerError String :=
  if code = "" ∨ st = "" then .error .dbError
  else
    match getExternalAuthManifestState db now st with
    | none => .error .notFound
    | some ms => .ok ms.redirect_uri

/-- Example pending invitation. -/
def exPendingInv : WorkspaceInvitation :=
  { id := 1, workspace_id := 10, inviter_id := 5, email := "a@b.com",
    access_level := "use", token := "tok1", status := "pending",
    expires_at := 1000, created_at := 50, responded_at := none }

/-- Example declined invitation. -/
def exDeclinedInv : WorkspaceInvitation :=
  { exPendingInv with id := 2, token := "tok2", status := "declined",
                      responded_at := some 60 }

/-- Example user whose email matches `exPendingInv`. -/
def exAlice : User :=
  { id := 7, email := "a@b.com", username := "alice", name := "Alice", avatar_url := "av" }

/-- Example user whose email does not match `exPendingInv`. -/
def exCarol : User :=
  { id := 8, email := "c@d.com", username := "carol", name := "Carol", avatar_url := "av" }

/-- Example workspace. -/
def exWs : Workspace := { id := 10, name := "ws" }

/-- Example store holding both invitations, both users, and no collaborator. -/
def exDB : DB :=
  { invitations := [exPendingInv, exDeclinedInv], collaborators := [],
    users := [exAlice, exCarol], workspaces := [exWs], manifestStates := [],
    nextInvId := 3, nextCollabId := 1 }

/-- Fields of an invitation row that neither `UpdateWorkspaceInvitationStatus`
nor `ExpireWorkspaceInvitations` may touch. -/
def frameAgrees (o n : WorkspaceInvitation) : Prop :=
  n.id = o.id ∧ n.workspace_id = o.workspace_id ∧ n.inviter_id = o.inviter_id ∧
  n.email = o.email ∧ n.access_level = o.access_level ∧ n.token = o.token ∧
  n.expires_at = o.expires_at ∧ n.created_at = o.created_at

instance (o n : WorkspaceInvitation) : Decidable (frameAgrees o n) := by
  unfold frameAgrees
  infer_instance

/-- Example store with one expired manifest state. -/
def exMsDB1 : DB :=
  { invitations := [], collaborators := [], users := [], workspaces := [],
    manifestStates := [{ state := "s1", redirect_uri := "https://app/cb",
                         created_at := 10, expires_at := 50 }],
    nextInvId := 1, nextCollabId := 1 }

/-- Example store with one live manifest state. -/
def exMsDB2 : DB :=
  { exMsDB1 with
    manifestStates := [{ state := "s1", redirect_uri := "https://app/cb",
                         created_at := 10, expires_at := 500 }] }

/-- Invariant mirrored from the `UNIQUE` constraint on
`workspace_invitations.token`: all stored tokens are pairwise distinct. -/
def tokenUnique (db : DB) : Prop :=
  db.invitations.Pairwise (fun a b => a.token ≠ b.token)

instance (db : DB) : Decidable (tokenUnique db) := by
  unfold tokenUnique
  infer_instance

/-- Invariant from `UNIQUE(workspace_id, user_id)` on `workspace_collaborators`:
no two rows share the (workspace, user) pair. -/
def collabUnique (db : DB) : Prop :=
  db.collaborators.Pairwise
    (fun a b => ¬ (a.workspace_id = b.workspace_id ∧ a.user_id = b.user_id))

instance (db : DB) : Decidable (collabUnique db) := by
  unfold collabUnique
  infer_instance

/-- One mutating request of the modelled fragment. -/
inductive Op where
  | acceptInvitation (now : Int) (token : String) (caller : Nat) (updFail : Bool)
  | declineInvitation (now : Int) (token : String)
  | cancelInvitation (now : Int) (invId : Nat)
  | expireSweep (now : Int)
  | createInvitation (now : Int) (ws inviter : Nat) (email lvl : String)
      (randomBytes : List Nat)
  | updateCollaborator (cid : Nat) (lvl : String)
  | removeCollaborator (cid : Nat)
  | initiateManifest (now : Int) (redirectURI state : String)
  | completeManifest (now : Int) (code st : String) (exchangeOk : Bool)

/-- The store state after running one operation. -/
def applyOp (op : Op) (db : DB) : DB :=
  match op with
  | .acceptInvitation now token caller updFail =>
    (acceptWorkspaceInvitation db now token caller updFail).2
  | .declineInvitation now token => (declineWorkspaceInvitation db now token).2
  | .cancelInvitation now invId => (deleteWorkspaceInvitation db now invId).2
  | .expireSweep now => expireWorkspaceInvitations db now
  | .createInvitation now ws inviter email lvl rb =>
    (createWorkspaceInvitation db now ws inviter email lvl rb).2
  | .updateCollaborator cid lvl =>
    match updateWorkspaceCollaboratorAccessLevel db cid lvl with
    | none => db
    | some (_, db') => db'
  | .removeCollaborator cid => (deleteWorkspaceCollaborator db cid).2
  | .initiateManifest now uri st => (initiateGitHubAppManifest db now uri st).2
  | .completeManifest now code st ok => (completeGitHubAppManifest db now code st ok).2

/-- Example collaborator row: Alice already collaborates on workspace 10. -/
def exCollabRow : WorkspaceCollaborator :=
  { id := 1, workspace_id := 10, user_id := 7, access_level := "use",
    invited_by := some 5, created_at := 70 }

/-- `exDB` with Alice already a collaborator. -/
def exDBCollab : DB := { exDB with collaborators := [exCollabRow] }

theorem decodeChar_encodeChar : ∀ n : Nat, n < 64 → decodeChar (encodeChar n) = some n := by
  decide

theorem b64decode_b64encode (bs : List Nat) (h : ∀ b ∈ bs, b < 256) :
    b64decode (b64encode bs) = some bs := by
  match bs with
  | [] => rfl
  | [b1] =>
    have hb1 : b1 < 256 := h b1 (by simp)
    simp only [b64encode, b64decode]
    rw [decodeChar_encodeChar _ (by omega), decodeChar_encodeChar _ (by omega)]
    simp only [Option.some.injEq, List.cons.injEq, and_true]
    omega
  | [b1, b2] =>
    have hb1 : b1 < 256 := h b1 (by simp)
    have hb2 : b2 < 256 := h b2 (by simp)
    simp only [b64encode, b64decode]
    rw [decodeChar_encodeChar _ (by omega), decodeChar_encodeChar _ (by omega),
      decodeChar_encodeChar _ (by omega)]
    simp only [Option.some.injEq, List.cons.injEq, and_true]
    constructor <;> omega
  | b1 :: b2 :: b3 :: rest =>
    have hb1 : b1 < 256 := h b1 (by simp)
    have hb2 : b2 < 256 := h b2 (by simp)
    have hb3 : b3 < 256 := h b3 (by simp)
    have ih := b64decode_b64encode rest (fun b hb => h b (by simp [hb]))
    simp only [b64encode, b64decode]
    rw [decodeChar_encodeChar _ (by omega), decodeChar_encodeChar _ (by omega),
      decodeChar_encodeChar _ (by omega), decodeChar_encodeChar _ (by omega), ih]
    simp only [Option.some.injEq, List.cons.injEq, and_true]
    refine ⟨by omega, by omega, by omega⟩

/-- C1: accepting a pending, unexpired invitation as the invited user who is
not yet a collaborator succeeds, creates a collaborator row carrying the
invitation's access level and inviter, and (when the status-update write does
not fail) marks the invitation accepted; when that second write fails, the
operation still reports success. -/
theorem accept_pending_success (db : DB) (now : Int) (token : String) (caller : Nat)
    (updFail : Bool) (inv : WorkspaceInvitation) (user : User)
    (hfind : getWorkspaceInvitationByToken db token = some inv)
    (hst : inv.status = "pending")
    (hexp : ¬ inv.expires_at < now)
    (huser : getUserByID db caller = some user)
    (hemail : user.email = inv.email)
    (hnc : getWorkspaceCollaboratorByUserAndWorkspace db inv.workspace_id caller = none) :
    ∃ c, (acceptWorkspaceInvitation db now token caller updFail).1 = .ok c ∧
      (∃ rc, rc ∈ (acceptWorkspaceInvitation db now token caller updFail).2.collaborators ∧
        rc.workspace_id = inv.workspace_id ∧ rc.user_id = caller ∧
        rc.access_level = inv.access_level ∧ rc.invited_by = some inv.inviter_id) ∧
      (updFail = false →
        ∀ j ∈ (acceptWorkspaceInvitation db now token caller updFail).2.invitations,
          j.id = inv.id → j.status = "accepted") := by
  have hmem : inv ∈ db.invitations := List.mem_of_find?_eq_some hfind
  have hnc' : db.collaborators.find? (collabMatches inv.workspace_id caller) = none := hnc
  have hcre : createWorkspaceCollaborator db now inv.workspace_id caller
      inv.access_level (some inv.inviter_id) =
      .ok (⟨db.nextCollabId, inv.workspace_id, caller, inv.access_level, some inv.inviter_id, now⟩,
           { db with
             collaborators := ((⟨db.nextCollabId, inv.workspace_id, caller, inv.access_level, some inv.inviter_id, now⟩ : WorkspaceCollaborator) :: db.collaborators),
             nextCollabId := db.nextCollabId + 1 }) := by
    unfold createWorkspaceCollaborator
    rw [hnc']
  have hjex : ∃ j, db.invitations.find? (fun i => i.id == inv.id) = some j := by
    cases hfd : db.invitations.find? (fun i => i.id == inv.id) with
    | some j => exact ⟨j, rfl⟩
    | none =>
      rw [List.find?_eq_none] at hfd
      exact absurd (hfd inv hmem) (by simp)
  obtain ⟨j, hj⟩ := hjex
  unfold acceptWorkspaceInvitation
  simp only [hfind, hcre]
  rw [if_neg (by simp [hst]), if_neg hexp]
  simp only [huser]
  rw [if_neg (by simp [hemail])]
  simp only [hnc]
  cases updFail with
  | true =>
    refine ⟨_, rfl, ⟨⟨db.nextCollabId, inv.workspace_id, caller, inv.access_level, some inv.inviter_id, now⟩, ?_, rfl, rfl, rfl, rfl⟩, by simp⟩
    rw [if_pos rfl]
    exact List.mem_cons_self _ _
  | false =>
    have hupd : updateWorkspaceInvitationStatus
        { db with
          collaborators := ((⟨db.nextCollabId, inv.workspace_id, caller, inv.access_level, some inv.inviter_id, now⟩ : WorkspaceCollaborator) :: db.collaborators),
          nextCollabId := db.nextCollabId + 1 } now inv.id "accepted" =
        some ({ j with status := "accepted", responded_at := some now },
          { db with
            invitations := db.invitations.map (fun k =>
              if k.id == inv.id then { k with status := "accepted", responded_at := some now }
              else k),
            collaborators := ((⟨db.nextCollabId, inv.workspace_id, caller, inv.access_level, some inv.inviter_id, now⟩ : WorkspaceCollaborator) :: db.collaborators),
            nextCollabId := db.nextCollabId + 1 }) := by
      unfold updateWorkspaceInvitationStatus
      rw [show ({ db with
          collaborators := ((⟨db.nextCollabId, inv.workspace_id, caller, inv.access_level, some inv.inviter_id, now⟩ : WorkspaceCollaborator) :: db.collaborators),
          nextCollabId := db.nextCollabId + 1 } : DB).invitations = db.invitations from rfl]
      rw [hj]
    simp only [hupd]
    refine ⟨_, rfl, ⟨⟨db.nextCollabId, inv.workspace_id, caller, inv.access_level, some inv.inviter_id, now⟩, ?_, rfl, rfl, rfl, rfl⟩, fun _ k hk hkid => ?_⟩
    · rw [if_neg (by simp)]
      exact List.mem_cons_self _ _
    · rw [if_neg (by simp)] at hk
      simp only [List.mem_map] at hk
      obtain ⟨x, _, hx⟩ := hk
      by_cases hxe : x.id = inv.id
      · rw [← hx]
        simp [hxe]
      · rw [← hx] at hkid
        simp [hxe] at hkid

/-- Witness for C1: concrete accept of `exPendingInv` by `exAlice` succeeds. -/
theorem accept_pending_success_witness :
    getWorkspaceInvitationByToken exDB "tok1" = some exPendingInv ∧
    exPendingInv.status = "pending" ∧
    ¬ exPendingInv.expires_at < (100 : Int) ∧
    getUserByID exDB 7 = some exAlice ∧
    exAlice.email = exPendingInv.email ∧
    getWorkspaceCollaboratorByUserAndWorkspace exDB exPendingInv.workspace_id 7 = none ∧
    (∃ c, (acceptWorkspaceInvitation exDB 100 "tok1" 7 false).1 = .ok c ∧
      (∃ rc, rc ∈ (acceptWorkspaceInvitation exDB 100 "tok1" 7 false).2.collaborators ∧
        rc.workspace_id = exPendingInv.workspace_id ∧ rc.user_id = 7 ∧
        rc.access_level = exPendingInv.access_level ∧
        rc.invited_by = some exPendingInv.inviter_id) ∧
      (false = false →
        ∀ j ∈ (acceptWorkspaceInvitation exDB 100 "tok1" 7 false).2.invitations,
          j.id = exPendingInv.id → j.status = "accepted")) :=
  ⟨rfl, rfl, by decide, rfl, rfl, rfl,
    accept_pending_success exDB 100 "tok1" 7 false exPendingInv exAlice
      rfl rfl (by decide) rfl rfl rfl⟩

/-- C2: accepting an invitation whose status is not `pending` fails with an
error naming the current status and leaves the store untouched (no
collaborator row, no invitation change). -/
theorem accept_nonpending_fails (db : DB) (now : Int) (token : String) (caller : Nat)
    (updFail : Bool) (inv : WorkspaceInvitation)
    (hfind : getWorkspaceInvitationByToken db token = some inv)
    (hst : inv.status ≠ "pending") :
    acceptWorkspaceInvitation db now token caller updFail =
      (.error (.wrongStatus inv.status), db) := by
  unfold acceptWorkspaceInvitation
  simp only [hfind]
  rw [if_pos hst]

/-- Witness for C2: accepting the declined `exDeclinedInv` fails naming
"declined" and leaves `exDB` unchanged. -/
theorem accept_nonpending_fails_witness :
    getWorkspaceInvitationByToken exDB "tok2" = some exDeclinedInv ∧
    exDeclinedInv.status ≠ "pending" ∧
    acceptWorkspaceInvitation exDB 100 "tok2" 7 false =
      (.error (.wrongStatus exDeclinedInv.status), exDB) :=
  ⟨rfl, by decide, accept_nonpending_fails exDB 100 "tok2" 7 false exDeclinedInv rfl (by decide)⟩

/-- C5: accepting a pending invitation whose expiry lies strictly in the past
fails with the expired error and leaves the store untouched. -/
theorem accept_expired_fails (db : DB) (now : Int) (token : String) (caller : Nat)
    (updFail : Bool) (inv : WorkspaceInvitation)
    (hfind : getWorkspaceInvitationByToken db token = some inv)
    (hst : inv.status = "pending")
    (hexp : inv.expires_at < now) :
    acceptWorkspaceInvitation db now token caller updFail = (.error .expired, db) := by
  unfold acceptWorkspaceInvitation
  simp only [hfind]
  rw [if_neg (by simp [hst]), if_pos hexp]

/-- Witness for C5: accepting `exPendingInv` after its expiry instant fails
as expired and leaves `exDB` unchanged. -/
theorem accept_expired_fails_witness :
    getWorkspaceInvitationByToken exDB "tok1" = some exPendingInv ∧
    exPendingInv.status = "pending" ∧
    exPendingInv.expires_at < (2000 : Int) ∧
    acceptWorkspaceInvitation exDB 2000 "tok1" 7 false = (.error .expired, exDB) :=
  ⟨rfl, rfl, by decide, accept_expired_fails exDB 2000 "tok1" 7 false exPendingInv rfl rfl (by decide)⟩

/-- C6: accepting a live pending invitation as a caller whose account email is
not byte-for-byte equal to the invitation's email fails as forbidden with no
side effect on the store. -/
theorem accept_email_mismatch_fails (db : DB) (now : Int) (token : String) (caller : Nat)
    (updFail : Bool) (inv : WorkspaceInvitation) (user : User)
    (hfind : getWorkspaceInvitationByToken db token = some inv)
    (hst : inv.status = "pending")
    (hexp : ¬ inv.expires_at < now)
    (huser : getUserByID db caller = some user)
    (hemail : user.email ≠ inv.email) :
    acceptWorkspaceInvitation db now token caller updFail =
      (.error .emailMismatch, db) := by
  unfold acceptWorkspaceInvitation
  simp only [hfind]
  rw [if_neg (by simp [hst]), if_neg hexp]
  simp only [huser]
  rw [if_pos hemail]

/-- Witness for C6: `exCarol` (email `c@d.com`) cannot accept the invitation
addressed to `a@b.com`; `exDB` is unchanged. -/
theorem accept_email_mismatch_fails_witness :
    getWorkspaceInvitationByToken exDB "tok1" = some exPendingInv ∧
    exPendingInv.status = "pending" ∧
    ¬ exPendingInv.expires_at < (100 : Int) ∧
    getUserByID exDB 8 = some exCarol ∧
    exCarol.email ≠ exPendingInv.email ∧
    acceptWorkspaceInvitation exDB 100 "tok1" 8 false = (.error .emailMismatch, exDB) :=
  ⟨rfl, rfl, by decide, rfl, by decide,
    accept_email_mismatch_fails exDB 100 "tok1" 8 false exPendingInv exCarol
      rfl rfl (by decide) rfl (by decide)⟩

/-- C8: cancelling by id unconditionally sets the invitation's status to
`canceled` whatever its current status, and fails with NotFound exactly when
no invitation with that id exists. -/
theorem cancel_sets_canceled (db : DB) (now : Int) (invId : Nat) :
    (∀ inv, getWorkspaceInvitationByID db invId = some inv →
      (deleteWorkspaceInvitation db now invId).1 = .ok () ∧
      ∀ j ∈ (deleteWorkspaceInvitation db now invId).2.invitations,
        j.id = invId → j.status = "canceled" ∧ j.responded_at = some now) ∧
    (getWorkspaceInvitationByID db invId = none →
      deleteWorkspaceInvitation db now invId = (.error .notFound, db)) := by
  constructor
  · intro inv hfound
    have hmem : inv ∈ db.invitations := List.mem_of_find?_eq_some hfound
    have hid : inv.id = invId := by simpa using List.find?_some hfound
    have hjex : ∃ j, db.invitations.find? (fun i => i.id == inv.id) = some j := by
      cases hfd : db.invitations.find? (fun i => i.id == inv.id) with
      | some j => exact ⟨j, rfl⟩
      | none =>
        rw [List.find?_eq_none] at hfd
        exact absurd (hfd inv hmem) (by simp)
    obtain ⟨j, hj⟩ := hjex
    have hupd : updateWorkspaceInvitationStatus db now inv.id "canceled" =
        some ({ j with status := "canceled", responded_at := some now },
          { db with invitations := db.invitations.map (fun k =>
              if k.id == inv.id then { k with status := "canceled", responded_at := some now }
              else k) }) := by
      unfold updateWorkspaceInvitationStatus
      rw [hj]
    unfold deleteWorkspaceInvitation
    simp only [hfound, hupd]
    refine ⟨by simp, fun j' hj' hj'id => ?_⟩
    simp only [List.mem_map] at hj'
    obtain ⟨x, _, hx⟩ := hj'
    by_cases hxe : x.id = inv.id
    · rw [← hx]
      simp [hxe]
    · rw [← hx] at hj'id
      rw [hid] at hxe
      simp [show (x.id == inv.id) = false by simp [hid, hxe]] at hj'id
      exact absurd hj'id hxe
  · intro hnone
    unfold deleteWorkspaceInvitation
    simp only [hnone]

/-- Witness for C8: cancelling the already-declined `exDeclinedInv` (id 2)
still flips it to canceled, and cancelling the absent id 9 is NotFound. -/
theorem cancel_sets_canceled_witness :
    (getWorkspaceInvitationByID exDB 2 = some exDeclinedInv ∧
      (deleteWorkspaceInvitation exDB 100 2).1 = .ok () ∧
      ∀ j ∈ (deleteWorkspaceInvitation exDB 100 2).2.invitations,
        j.id = 2 → j.status = "canceled" ∧ j.responded_at = some 100) ∧
    (getWorkspaceInvitationByID exDB 9 = none ∧
      deleteWorkspaceInvitation exDB 100 9 = (.error .notFound, exDB)) :=
  ⟨⟨rfl, (cancel_sets_canceled exDB 100 2).1 exDeclinedInv rfl⟩,
   ⟨rfl, (cancel_sets_canceled exDB 100 9).2 rfl⟩⟩

/-- C10: the single-row status update (used by accept, decline and cancel)
sets `status` and stamps `responded_at = now` on the matching row and leaves
every other field and every other row untouched; the batch expire sweep flips
pending, past-expiry rows to `expired` without touching `responded_at`, and
leaves every other field and every other row untouched. -/
theorem status_update_frame :
    (∀ (db : DB) (now : Int) (invId : Nat) (st : String)
        (r : WorkspaceInvitation) (db' : DB),
      updateWorkspaceInvitationStatus db now invId st = some (r, db') →
      db'.collaborators = db.collaborators ∧
      db'.invitations.length = db.invitations.length ∧
      ∀ k (hk : k < db.invitations.length) (hk' : k < db'.invitations.length),
        ((db.invitations.get ⟨k, hk⟩).id = invId →
          (db'.invitations.get ⟨k, hk'⟩).status = st ∧
          (db'.invitations.get ⟨k, hk'⟩).responded_at = some now ∧
          frameAgrees (db.invitations.get ⟨k, hk⟩) (db'.invitations.get ⟨k, hk'⟩)) ∧
        ((db.invitations.get ⟨k, hk⟩).id ≠ invId →
          db'.invitations.get ⟨k, hk'⟩ = db.invitations.get ⟨k, hk⟩)) ∧
    (∀ (db : DB) (now : Int),
      (expireWorkspaceInvitations db now).collaborators = db.collaborators ∧
      (expireWorkspaceInvitations db now).invitations.length = db.invitations.length ∧
      ∀ k (hk : k < db.invitations.length)
          (hk' : k < (expireWorkspaceInvitations db now).invitations.length),
        (((db.invitations.get ⟨k, hk⟩).status = "pending" ∧
            (db.invitations.get ⟨k, hk⟩).expires_at ≤ now) →
          ((expireWorkspaceInvitations db now).invitations.get ⟨k, hk'⟩).status = "expired" ∧
          ((expireWorkspaceInvitations db now).invitations.get ⟨k, hk'⟩).responded_at =
            (db.invitations.get ⟨k, hk⟩).responded_at ∧
          frameAgrees (db.invitations.get ⟨k, hk⟩)
            ((expireWorkspaceInvitations db now).invitations.get ⟨k, hk'⟩)) ∧
        (¬ ((db.invitations.get ⟨k, hk⟩).status = "pending" ∧
              (db.invitations.get ⟨k, hk⟩).expires_at ≤ now) →
          (expireWorkspaceInvitations db now).invitations.get ⟨k, hk'⟩ =
            db.invitations.get ⟨k, hk⟩)) := by
  constructor
  · intro db now invId st r db' h
    unfold updateWorkspaceInvitationStatus at h
    cases hfd : db.invitations.find? (fun i => i.id == invId) with
    | none =>
      rw [hfd] at h
      exact absurd h (by simp)
    | some i =>
      rw [hfd] at h
      simp only [Option.some.injEq, Prod.mk.injEq] at h
      obtain ⟨-, hdb'⟩ := h
      subst hdb'
      refine ⟨rfl, by simp, fun k hk hk' => ⟨fun hid => ?_, fun hid => ?_⟩⟩
      · simp only [List.get_eq_getElem] at hid
        simp only [List.get_eq_getElem, List.getElem_map]
        rw [if_pos (by simp [hid])]
        exact ⟨rfl, rfl, rfl, rfl, rfl, rfl, rfl, rfl, rfl, rfl⟩
      · simp only [List.get_eq_getElem] at hid
        simp only [List.get_eq_getElem, List.getElem_map]
        rw [if_neg (by simp [hid])]
  · intro db now
    refine ⟨rfl, by simp [expireWorkspaceInvitations], fun k hk hk' => ⟨fun hc => ?_, fun hc => ?_⟩⟩
    · simp only [List.get_eq_getElem] at hc
      simp only [expireWorkspaceInvitations, List.get_eq_getElem, List.getElem_map]
      rw [if_pos (by simp [hc.1, hc.2])]
      exact ⟨rfl, rfl, rfl, rfl, rfl, rfl, rfl, rfl, rfl, rfl⟩
    · simp only [List.get_eq_getElem] at hc
      simp only [expireWorkspaceInvitations, List.get_eq_getElem, List.getElem_map]
      rw [if_neg ?_]
      simp only [Bool.and_eq_true, beq_iff_eq, decide_eq_true_eq, not_and]
      intro h1 h2
      exact hc ⟨h1, h2⟩

/-- Witness for C10: updating invitation id 1 of `exDB` to `declined` stamps
`responded_at` and frames every other field. -/
theorem status_update_frame_witness :
    ∃ r db', updateWorkspaceInvitationStatus exDB 100 1 "declined" = some (r, db') ∧
      (db'.collaborators = exDB.collaborators ∧
       db'.invitations.length = exDB.invitations.length ∧
       ∀ k (hk : k < exDB.invitations.length) (hk' : k < db'.invitations.length),
         ((exDB.invitations.get ⟨k, hk⟩).id = 1 →
           (db'.invitations.get ⟨k, hk'⟩).status = "declined" ∧
           (db'.invitations.get ⟨k, hk'⟩).responded_at = some 100 ∧
           frameAgrees (exDB.invitations.get ⟨k, hk⟩) (db'.invitations.get ⟨k, hk'⟩)) ∧
         ((exDB.invitations.get ⟨k, hk⟩).id ≠ 1 →
           db'.invitations.get ⟨k, hk'⟩ = exDB.invitations.get ⟨k, hk⟩)) :=
  ⟨_, _, rfl, status_update_frame.1 exDB 100 1 "declined" _ _ rfl⟩

/-- C9: a manifest state whose expiry is not in the future fails lookup in
both the callback redirect and the completion step even though its row is
still stored, and the completion step deletes the row right after a
successful lookup (before the external exchange, whatever its outcome). -/
theorem manifest_state_expired_and_single_use (db : DB) (now : Int) (code st : String)
    (ok : Bool) (hcode : code ≠ "") (hst : st ≠ "") :
    ((∃ s ∈ db.manifestStates, s.state = st) →
      (∀ s ∈ db.manifestStates, s.state = st → s.expires_at ≤ now) →
      getExternalAuthManifestState db now st = none ∧
      completeGitHubAppManifest db now code st ok = (.error .notFound, db) ∧
      handleGitHubAppManifestCallbackRedirect db now code st = .error .notFound) ∧
    (∀ ms, getExternalAuthManifestState db now st = some ms →
      ∀ s ∈ (completeGitHubAppManifest db now code st ok).2.manifestStates,
        s.state ≠ st) := by
  constructor
  · intro _ hexp
    have hnone : getExternalAuthManifestState db now st = none := by
      unfold getExternalAuthManifestState
      rw [List.find?_eq_none]
      intro s hs
      by_cases he : s.state = st
      · have hle := hexp s hs he
        simp [he]
        omega
      · simp [he]
    refine ⟨hnone, ?_, ?_⟩
    · unfold completeGitHubAppManifest
      rw [if_neg (by simp [hcode, hst])]
      simp only [hnone]
    · unfold handleGitHubAppManifestCallbackRedirect
      rw [if_neg (by simp [hcode, hst])]
      simp only [hnone]
  · intro ms hms s hs
    unfold completeGitHubAppManifest at hs
    rw [if_neg (by simp [hcode, hst])] at hs
    simp only [hms] at hs
    have hmem : s ∈ (deleteExternalAuthManifestState db st).manifestStates := by
      cases ok with
      | true => simpa using hs
      | false => simpa using hs
    unfold deleteExternalAuthManifestState at hmem
    simp only [List.mem_filter, bne_iff_ne, ne_eq] at hmem
    exact hmem.2

/-- Witness for C9: at `now = 100` the expired state of `exMsDB1` fails both
lookups; the live state of `exMsDB2` is deleted by the completion step. -/
theorem manifest_state_expired_and_single_use_witness :
    (("c" : String) ≠ "" ∧ ("s1" : String) ≠ "" ∧
      (∃ s ∈ exMsDB1.manifestStates, s.state = "s1") ∧
      (∀ s ∈ exMsDB1.manifestStates, s.state = "s1" → s.expires_at ≤ (100 : Int)) ∧
      (getExternalAuthManifestState exMsDB1 100 "s1" = none ∧
       completeGitHubAppManifest exMsDB1 100 "c" "s1" true = (.error .notFound, exMsDB1) ∧
       handleGitHubAppManifestCallbackRedirect exMsDB1 100 "c" "s1" = .error .notFound)) ∧
    (∃ ms, getExternalAuthManifestState exMsDB2 100 "s1" = some ms ∧
      ∀ s ∈ (completeGitHubAppManifest exMsDB2 100 "c" "s1" true).2.manifestStates,
        s.state ≠ "s1") :=
  ⟨⟨by decide, by decide, by decide, by decide,
    (manifest_state_expired_and_single_use exMsDB1 100 "c" "s1" true (by decide)
      (by decide)).1 (by decide) (by decide)⟩,
   ⟨_, rfl,
    (manifest_state_expired_and_single_use exMsDB2 100 "c" "s1" true (by decide)
      (by decide)).2 _ rfl⟩⟩

/-- C7: listing a workspace's invitations returns exactly the invitations of
that workspace (as a permutation of the converted filter), sorted by creation
time descending, with the token always redacted to the empty string. -/
theorem list_invitations_redacted_sorted (db : DB) (ws : Nat) :
    (∀ r ∈ listWorkspaceInvitations db ws, r.token = "") ∧
    (listWorkspaceInvitations db ws).Perm
      ((db.invitations.filter (fun i => i.workspace_id == ws)).map
        (fun i => convertWorkspaceInvitation i "")) ∧
    (listWorkspaceInvitations db ws).Sorted (fun a b => b.created_at ≤ a.created_at) := by
  refine ⟨?_, ?_, ?_⟩
  · intro r hr
    unfold listWorkspaceInvitations at hr
    simp only [List.mem_map] at hr
    obtain ⟨i, _, hi⟩ := hr
    rw [← hi]
    rfl
  · unfold listWorkspaceInvitations getWorkspaceInvitationsByWorkspaceID
    exact (List.perm_insertionSort invCreatedDesc _).map _
  · unfold listWorkspaceInvitations getWorkspaceInvitationsByWorkspaceID
    have hs := List.sorted_insertionSort invCreatedDesc
      (db.invitations.filter (fun i => i.workspace_id == ws))
    unfold List.Sorted at hs ⊢
    rw [List.pairwise_map]
    exact hs

theorem b64encode_ne_nil (bs : List Nat) (h : bs ≠ []) : b64encode bs ≠ [] := by
  match bs with
  | [] => exact absurd rfl h
  | [b1] => simp [b64encode]
  | [b1, b2] => simp [b64encode]
  | b1 :: b2 :: b3 :: rest => simp [b64encode]

/-- C4: a successful invitation creation stores a pending row whose token is
the URL-safe base64 of the 32 fresh random bytes (so it decodes back to
exactly those 32 bytes), with expiry `now + 7 days`; the token stays unique
across all invitations; the response carries the plaintext token; and no
other read path (listing, lookup by token, the caller's pending list) ever
carries a token. -/
theorem create_invitation_properties (db : DB) (now : Int) (ws inviter : Nat)
    (email lvl : String) (randomBytes : List Nat)
    (resp : SDKWorkspaceInvitation) (db' : DB)
    (hlen : randomBytes.length = invitationTokenLength)
    (hbytes : ∀ b ∈ randomBytes, b < 256)
    (huniq : tokenUnique db)
    (hok : createWorkspaceInvitation db now ws inviter email lvl randomBytes =
      (.ok resp, db')) :
    b64decode resp.token.data = some randomBytes ∧
    randomBytes.length = 32 ∧
    resp.token = generateInvitationToken randomBytes ∧
    resp.status = "pending" ∧
    resp.expires_at = now + invitationExpiryDays * 24 * 60 * 60 ∧
    (∃ inv ∈ db'.invitations, inv.token = resp.token ∧ inv.status = "pending" ∧
      inv.expires_at = now + invitationExpiryDays * 24 * 60 * 60) ∧
    tokenUnique db' ∧
    (∀ dbx wsx, ∀ r ∈ listWorkspaceInvitations dbx wsx, r.token = "") ∧
    (∀ dbx t r, getWorkspaceInvitationByTokenHandler dbx t = .ok r → r.token = "") ∧
    (∀ dbx nowx caller rs, getMyPendingInvitations dbx nowx caller = .ok rs →
      ∀ r ∈ rs, r.token = "") := by
  have hne : b64encode randomBytes ≠ [] := by
    apply b64encode_ne_nil
    intro hnil
    rw [hnil] at hlen
    simp [invitationTokenLength] at hlen
  have htok_ne : generateInvitationToken randomBytes ≠ "" := by
    intro h
    exact hne (by simpa [generateInvitationToken] using congrArg String.data h)
  simp only [createWorkspaceInvitation, dbCreateWorkspaceInvitation] at hok
  cases hgd : db.invitations.any (fun i => i.token == generateInvitationToken randomBytes) with
  | true =>
    rw [hgd] at hok
    simp at hok
  | false =>
    rw [hgd] at hok
    simp only [Bool.false_eq_true, if_false, Prod.mk.injEq, Except.ok.injEq] at hok
    obtain ⟨hresp, hdb'⟩ := hok
    have hnotok : ∀ b ∈ db.invitations, b.token ≠ generateInvitationToken randomBytes := by
      intro b hb heq
      have hany : db.invitations.any
          (fun i => i.token == generateInvitationToken randomBytes) = true :=
        List.any_eq_true.mpr ⟨b, hb, by simp [heq]⟩
      rw [hgd] at hany
      exact absurd hany (by simp)
    have hrt : resp.token = generateInvitationToken randomBytes := by
      rw [← hresp]
      by_cases h : generateInvitationToken randomBytes = "" <;>
        simp [convertWorkspaceInvitation, h]
    refine ⟨?_, by simpa [invitationTokenLength] using hlen, hrt, ?_, ?_, ?_, ?_, ?_, ?_, ?_⟩
    · rw [hrt]
      exact b64decode_b64encode randomBytes hbytes
    · rw [← hresp]
      rfl
    · rw [← hresp]
      rfl
    · refine ⟨_, by rw [← hdb']; exact List.mem_cons_self _ _, ?_, rfl, rfl⟩
      rw [hrt]
    · rw [← hdb']
      unfold tokenUnique
      refine List.Pairwise.cons ?_ huniq
      intro b hb
      exact fun he => hnotok b hb (he ▸ rfl)
    · intro dbx wsx r hr
      unfold listWorkspaceInvitations at hr
      simp only [List.mem_map] at hr
      obtain ⟨i, _, hi⟩ := hr
      rw [← hi]
      rfl
    · intro dbx t r h
      unfold getWorkspaceInvitationByTokenHandler at h
      cases h1 : getWorkspaceInvitationByToken dbx t with
      | none => rw [h1] at h; simp at h
      | some inv =>
        simp only [h1] at h
        cases h2 : getWorkspaceByID dbx inv.workspace_id with
        | none => rw [h2] at h; simp at h
        | some w =>
          simp only [h2] at h
          cases h3 : getUserByID dbx inv.inviter_id with
          | none => rw [h3] at h; simp at h
          | some u =>
            simp only [h3, Except.ok.injEq] at h
            rw [← h]
            rfl
    · intro dbx nowx caller rs h r hr
      unfold getMyPendingInvitations at h
      cases h1 : getUserByID dbx caller with
      | none => rw [h1] at h; simp at h
      | some u =>
        simp only [h1, Except.ok.injEq] at h
        rw [← h] at hr
        simp only [List.mem_filterMap] at hr
        obtain ⟨inv, _, hf⟩ := hr
        cases h2 : getWorkspaceByID dbx inv.workspace_id with
        | none => rw [h2] at hf; simp at hf
        | some w =>
          simp only [h2] at hf
          cases h3 : getUserByID dbx inv.inviter_id with
          | none => rw [h3] at hf; simp at hf
          | some inviter =>
            simp only [h3, Option.some.injEq] at hf
            rw [← hf]
            rfl

/-- Witness for C4: creating an invitation in `exDB` from 32 zero bytes. -/
theorem create_invitation_properties_witness :
    (List.replicate 32 0).length = invitationTokenLength ∧
    (∀ b ∈ List.replicate 32 0, b < 256) ∧
    tokenUnique exDB ∧
    ∃ resp db',
      createWorkspaceInvitation exDB 100 10 5 "e@f.com" "admin" (List.replicate 32 0) =
        (.ok resp, db') ∧
      (b64decode resp.token.data = some (List.replicate 32 0) ∧
       (List.replicate 32 (0 : Nat)).length = 32 ∧
       resp.token = generateInvitationToken (List.replicate 32 0) ∧
       resp.status = "pending" ∧
       resp.expires_at = 100 + invitationExpiryDays * 24 * 60 * 60 ∧
       (∃ inv ∈ db'.invitations, inv.token = resp.token ∧ inv.status = "pending" ∧
         inv.expires_at = 100 + invitationExpiryDays * 24 * 60 * 60) ∧
       tokenUnique db' ∧
       (∀ dbx wsx, ∀ r ∈ listWorkspaceInvitations dbx wsx, r.token = "") ∧
       (∀ dbx t r, getWorkspaceInvitationByTokenHandler dbx t = .ok r → r.token = "") ∧
       (∀ dbx nowx caller rs, getMyPendingInvitations dbx nowx caller = .ok rs →
         ∀ r ∈ rs, r.token = "")) :=
  ⟨by decide, by decide, by decide, _, _, rfl,
    create_invitation_properties exDB 100 10 5 "e@f.com" "admin" (List.replicate 32 0)
      _ _ (by decide) (by decide) (by decide) rfl⟩

theorem updateWorkspaceInvitationStatus_collaborators (db : DB) (now : Int)
    (invId : Nat) (st : String) (r : WorkspaceInvitation) (db' : DB)
    (h : updateWorkspaceInvitationStatus db now invId st = some (r, db')) :
    db'.collaborators = db.collaborators := by
  unfold updateWorkspaceInvitationStatus at h
  cases hfd : db.invitations.find? (fun i => i.id == invId) with
  | none => rw [hfd] at h; simp at h
  | some i =>
    rw [hfd] at h
    simp only [Option.some.injEq, Prod.mk.injEq] at h
    rw [← h.2]

theorem createWorkspaceCollaborator_unique (db : DB) (now : Int) (ws uid : Nat)
    (lvl : String) (inb : Option Nat) (c : WorkspaceCollaborator) (db' : DB)
    (h : createWorkspaceCollaborator db now ws uid lvl inb = .ok (c, db'))
    (hu : collabUnique db) : collabUnique db' := by
  unfold createWorkspaceCollaborator at h
  cases hfd : db.collaborators.find? (collabMatches ws uid) with
  | some _ => rw [hfd] at h; simp at h
  | none =>
    rw [hfd] at h
    simp only [Except.ok.injEq, Prod.mk.injEq] at h
    obtain ⟨-, hdb'⟩ := h
    rw [← hdb']
    unfold collabUnique
    refine List.Pairwise.cons ?_ hu
    intro b hb hcontra
    have hnm := List.find?_eq_none.mp hfd b hb
    simp only [collabMatches, Bool.and_eq_true, beq_iff_eq] at hnm
    exact hnm ⟨hcontra.1.symm, hcontra.2.symm⟩

/-- C3: accepting while already a collaborator is rejected as a conflict with
no new row, and every modelled operation preserves the at-most-one-row-per-
(workspace, user) invariant. -/
theorem collaborator_pair_unique :
    (∀ (db : DB) (op : Op), collabUnique db → collabUnique (applyOp op db)) ∧
    (∀ (db : DB) (now : Int) (token : String) (caller : Nat) (updFail : Bool)
        (inv : WorkspaceInvitation) (user : User) (c : WorkspaceCollaborator),
      getWorkspaceInvitationByToken db token = some inv →
      inv.status = "pending" →
      ¬ inv.expires_at < now →
      getUserByID db caller = some user →
      user.email = inv.email →
      getWorkspaceCollaboratorByUserAndWorkspace db inv.workspace_id caller = some c →
      acceptWorkspaceInvitation db now token caller updFail =
        (.error .alreadyCollaborator, db)) := by
  constructor
  · intro db op hdb
    cases op with
    | acceptInvitation now token caller updFail =>
      show collabUnique (acceptWorkspaceInvitation db now token caller updFail).2
      unfold acceptWorkspaceInvitation
      split
      · exact hdb
      · split
        · exact hdb
        · split
          · exact hdb
          · split
            · exact hdb
            · split
              · exact hdb
              · split
                · exact hdb
                · split
                  · exact hdb
                  · next collab db1 heq =>
                    have hdb1 : collabUnique db1 :=
                      createWorkspaceCollaborator_unique _ _ _ _ _ _ _ _ heq hdb
                    dsimp only
                    split
                    · exact hdb1
                    · split
                      · exact hdb1
                      · next r d hupd =>
                        have hc := updateWorkspaceInvitationStatus_collaborators
                          _ _ _ _ _ _ hupd
                        unfold collabUnique at hdb1 ⊢
                        rw [hc]
                        exact hdb1
    | declineInvitation now token =>
      show collabUnique (declineWorkspaceInvitation db now token).2
      unfold declineWorkspaceInvitation
      split
      · exact hdb
      · split
        · exact hdb
        · split
          · exact hdb
          · next r d hupd =>
            have hc := updateWorkspaceInvitationStatus_collaborators _ _ _ _ _ _ hupd
            unfold collabUnique at hdb ⊢
            rw [hc]
            exact hdb
    | cancelInvitation now invId =>
      show collabUnique (deleteWorkspaceInvitation db now invId).2
      unfold deleteWorkspaceInvitation
      split
      · exact hdb
      · split
        · exact hdb
        · next r d hupd =>
          have hc := updateWorkspaceInvitationStatus_collaborators _ _ _ _ _ _ hupd
          unfold collabUnique at hdb ⊢
          rw [hc]
          exact hdb
    | expireSweep now =>
      exact hdb
    | createInvitation now ws inviter email lvl rb =>
      show collabUnique (createWorkspaceInvitation db now ws inviter email lvl rb).2
      unfold createWorkspaceInvitation
      dsimp only
      split
      · exact hdb
      · next inv db' heq =>
        unfold dbCreateWorkspaceInvitation at heq
        split at heq
        · simp at heq
        · simp only [Except.ok.injEq, Prod.mk.injEq] at heq
          unfold collabUnique at hdb ⊢
          rw [← heq.2]
          exact hdb
    | updateCollaborator cid lvl =>
      show collabUnique
        (match updateWorkspaceCollaboratorAccessLevel db cid lvl with
         | none => db
         | some (_, db') => db')
      split
      · exact hdb
      · next r d hupd =>
        unfold updateWorkspaceCollaboratorAccessLevel at hupd
        cases hfd : db.collaborators.find? (fun c => c.id == cid) with
        | none => rw [hfd] at hupd; simp at hupd
        | some c0 =>
          rw [hfd] at hupd
          simp only [Option.some.injEq, Prod.mk.injEq] at hupd
          unfold collabUnique at hdb ⊢
          rw [← hupd.2]
          rw [List.pairwise_map]
          refine List.Pairwise.imp ?_ hdb
          intro a b hab hcontra
          apply hab
          have hws : ∀ x : WorkspaceCollaborator,
              ((if x.id == cid then { x with access_level := lvl } else x) :
                WorkspaceCollaborator).workspace_id = x.workspace_id := by
            intro x
            by_cases h : x.id == cid <;> simp [h]
          have huid : ∀ x : WorkspaceCollaborator,
              ((if x.id == cid then { x with access_level := lvl } else x) :
                WorkspaceCollaborator).user_id = x.user_id := by
            intro x
            by_cases h : x.id == cid <;> simp [h]
          refine ⟨?_, ?_⟩
          · rw [← hws a, ← hws b]
            exact hcontra.1
          · rw [← huid a, ← huid b]
            exact hcontra.2
    | removeCollaborator cid =>
      show collabUnique (deleteWorkspaceCollaborator db cid).2
      unfold collabUnique at hdb ⊢
      exact List.Pairwise.filter _ hdb
    | initiateManifest now uri st =>
      show collabUnique (initiateGitHubAppManifest db now uri st).2
      unfold initiateGitHubAppManifest
      split
      · exact hdb
      · exact hdb
    | completeManifest now code st ok =>
      show collabUnique (completeGitHubAppManifest db now code st ok).2
      unfold completeGitHubAppManifest
      split
      · exact hdb
      · split
        · exact hdb
        · split
          · exact hdb
          · exact hdb
  · intro db now token caller updFail inv user c hfind hst hexp huser hemail hcol
    unfold acceptWorkspaceInvitation
    simp only [hfind]
    rw [if_neg (by simp [hst]), if_neg hexp]
    simp only [huser]
    rw [if_neg (by simp [hemail])]
    simp only [hcol]

/-- Witness for C3: an accept request preserves the invariant on `exDB`, and
Alice's second accept on `exDBCollab` is rejected as a conflict with the
store unchanged. -/
theorem collaborator_pair_unique_witness :
    (collabUnique exDB ∧
     collabUnique (applyOp (.acceptInvitation 100 "tok1" 7 false) exDB)) ∧
    (getWorkspaceInvitationByToken exDBCollab "tok1" = some exPendingInv ∧
     exPendingInv.status = "pending" ∧
     ¬ exPendingInv.expires_at < (100 : Int) ∧
     getUserByID exDBCollab 7 = some exAlice ∧
     exAlice.email = exPendingInv.email ∧
     getWorkspaceCollaboratorByUserAndWorkspace exDBCollab
       exPendingInv.workspace_id 7 = some exCollabRow ∧
     acceptWorkspaceInvitation exDBCollab 100 "tok1" 7 false =
       (.error .alreadyCollaborator, exDBCollab)) :=
  ⟨⟨by decide, collaborator_pair_unique.1 exDB _ (by decide)⟩,
   ⟨rfl, rfl, by decide, rfl, rfl, rfl,
    collaborator_pair_unique.2 exDBCollab 100 "tok1" 7 false exPendingInv exAlice
      exCollabRow rfl rfl (by decide) rfl rfl rfl⟩⟩
